import Mathlib

/-!
Verification of the route-risk scoring and selection core of the
flood-aware navigation app (`src/js/app.js`). The JavaScript is embedded
shallowly: JS numbers become `ℚ` (exact arithmetic), JS objects become
association lists, fallible operations return `Except`, and the external
collaborators (map, network, storage) become explicit parameters.
-/

set_option maxHeartbeats 1000000

/-- A WGS84 coordinate as carried in the `{ lat, lng }` objects of `app.js`. -/
structure Coord where
  lat : ℚ
  lng : ℚ
deriving DecidableEq

/-- The flood grid persisted under the `flood_grid` storage key: a JS object
mapping a quantized-coordinate key to a count, modelled as an association
list in which the first binding for a key wins. -/
abbrev Grid := List ((ℤ × ℤ) × ℤ)

/-- `FloodLearner._key(lat, lng)`: the key string
`lat.toFixed(3) + "|" + lng.toFixed(3)`, modelled by the pair of integers
of thousandths. `toFixed` rounds to the nearest representation and picks
the larger value on a tie, which is `round` (half towards plus infinity). -/
def FloodLearner.key (lat lng : ℚ) : ℤ × ℤ :=
  (round (lat * 1000), round (lng * 1000))

/-- The read `g[k] || 0`: the value bound to `k`, defaulting to 0. -/
def lookupCount : Grid → ℤ × ℤ → ℤ
  | [], _ => 0
  | (k', v) :: rest, k => if k' = k then v else lookupCount rest k

/-- The write `g[k] = v` on a JS object: replace the first binding of `k`,
or append a fresh binding. -/
def setKey : Grid → ℤ × ℤ → ℤ → Grid
  | [], k, v => [(k, v)]
  | (k', v') :: rest, k, v =>
    if k' = k then (k, v) :: rest else (k', v') :: setKey rest k v

/-- `FloodLearner.increment(lat, lng)`: `g[k] = (g[k] || 0) + 1` on the
current grid; the updated grid is what `localStorage` then holds. -/
def FloodLearner.increment (g : Grid) (lat lng : ℚ) : Grid :=
  setKey g (FloodLearner.key lat lng) (lookupCount g (FloodLearner.key lat lng) + 1)

/-- `FloodLearner.score(lat, lng)`: `g[this._key(lat,lng)] || 0`. -/
def FloodLearner.score (g : Grid) (lat lng : ℚ) : ℤ :=
  lookupCount g (FloodLearner.key lat lng)

/-- A value `JSON.parse` can return: JSON null, a boolean, a number, a
string, or an object. An object's own string-keyed properties model the
grid (an array is also an object, with no own property at any grid key,
so it behaves like `jobj []` for the reads below). -/
inductive JsonVal where
  | jnull
  | jbool (b : Bool)
  | jnum (q : ℚ)
  | jstr (s : String)
  | jobj (g : Grid)
deriving DecidableEq

/-- The contents of `localStorage` under the `flood_grid` key: absent,
present but not parseable as JSON, or well-formed JSON with its parsed
value (which need not be an object: the stored text `null` parses to
JSON null, the stored text `5` to a number, and so on). -/
inductive Stored where
  | absent
  | malformed (raw : String)
  | wellFormed (v : JsonVal)

/-- Outcome of `JSON.parse` on the stored value as `app.js` invokes it: an
absent key (`getItem` returns `null`, falsy) substitutes the empty-object
literal before parsing; malformed text makes `JSON.parse`
throw, modelled as `Except.error`; any well-formed text parses successfully
to its value — including the text `null`, which parses to JSON null
without throwing. -/
def parseStored : Stored → Except String JsonVal
  | .absent => .ok (.jobj [])
  | .malformed _ => .error "SyntaxError"
  | .wellFormed v => .ok v

/-- `FloodLearner.all()`: the surrounding `try`/`catch` turns a parse
error into the empty object, so the call itself never throws — but it
passes any successfully parsed value through unchanged, object or not. -/
def FloodLearner.all (s : Stored) : JsonVal :=
  match parseStored s with
  | .ok v => v
  | .error _ => .jobj []

/-- `FloodLearner.score` reading the persisted state as stored: the
property read `g[this._key(lat,lng)] || 0` on the result of `all()`.
On JSON null the property access throws a `TypeError`
(`Except.error`); on a boolean, number or string it yields `undefined`
and `|| 0` gives 0; on an object it is the grid lookup. -/
def FloodLearner.scoreStored (s : Stored) (lat lng : ℚ) : Except Unit ℤ :=
  match FloodLearner.all s with
  | .jnull => .error ()
  | .jbool _ => .ok 0
  | .jnum _ => .ok 0
  | .jstr _ => .ok 0
  | .jobj g => .ok (lookupCount g (FloodLearner.key lat lng))

/-- The body of the loop `for (let i = 0; i < coords.length; i += step)` in
`sampleCoordsFromGeojson`, walking the list one element at a time with a
countdown `k` to the next picked index: the element is picked when `k = 0`
and the countdown restarts at `step - 1`. For `step ≥ 1` this picks exactly
the indices `k, k + step, k + 2·step, …`. -/
def strideGo (step : ℕ) : List Coord → ℕ → List Coord
  | [], _ => []
  | c :: rest, 0 => c :: strideGo step rest (step - 1)
  | _ :: rest, k + 1 => strideGo step rest k

/-- `sampleCoordsFromGeojson(geojson, maxSamples)`. `geo = none` models a
null geometry or a geometry without a `coordinates` field (the guard
`!geojson || !geojson.coordinates` returns `[]`); otherwise the points at
indices `0, step, 2·step, …` are collected, with
`step = Math.max(1, Math.floor(coords.length / maxSamples))`. -/
def sampleCoordsFromGeojson (geo : Option (List Coord)) (maxSamples : ℕ) : List Coord :=
  match geo with
  | none => []
  | some coords => strideGo (max 1 (coords.length / maxSamples)) coords 0

/-- `computeLearnedScore`: arithmetic mean of the `FloodLearner` counts over
the sample points (30 samples requested), 0 when there are no samples. -/
def computeLearnedScore (grid : Grid) (geo : Option (List Coord)) : ℚ :=
  let samples := sampleCoordsFromGeojson geo 30
  if samples.length = 0 then 0
  else (samples.map fun p => ((FloodLearner.score grid p.lat p.lng : ℤ) : ℚ)).sum / samples.length

/-- `computeNoahScore`: `hz = none` models a missing map object or a map
without the `noahHazard` source (the guards return 0); `hit p = true`
models `queryRenderedFeatures` returning a nonempty feature list near `p`
(a query that throws is swallowed and counts as a miss). The result is the
hit fraction over 20 requested samples, or 0 with no samples. -/
def computeNoahScore (hz : Option (Coord → Bool)) (geo : Option (List Coord)) : ℚ :=
  match hz with
  | none => 0
  | some hit =>
    let samples := sampleCoordsFromGeojson geo 20
    let hits := (samples.filter hit).length
    if 0 < samples.length then (hits : ℚ) / samples.length else 0

/-- The `current` object of an AccuWeather proxy response, with the two
fields the scorer reads; `none` components model absent fields. -/
structure WeatherCur where
  weatherText : Option String
  pastHour : Option ℚ
deriving DecidableEq

/-- An AccuWeather proxy response body. -/
structure AccuResp where
  current : Option WeatherCur
deriving DecidableEq

/-- The record returned by `computeWeatherScoreForPoint` (the `raw` field is
dropped: nothing in the scorer reads it). -/
structure WScore where
  rainScore : ℚ
  alertScore : ℚ
deriving DecidableEq

/-- Whether the pattern `p` occurs at the head of `l` (character prefix). -/
def leadsWith : List Char → List Char → Bool
  | [], _ => true
  | _ :: _, [] => false
  | p :: ps, c :: cs => p == c && leadsWith ps cs

/-- Whether the pattern `p` occurs anywhere in `l` (substring search). -/
def hasSub (pat : List Char) : List Char → Bool
  | [] => leadsWith pat []
  | c :: cs => leadsWith pat (c :: cs) || hasSub pat cs

/-- The regex test `/thunderstorm|tornado|flood|severe/i.test(s)`: the four
alternatives are lowercase words, so the case-insensitive test is a plain
substring search on the lowercased text. -/
def severeTest (s : String) : Bool :=
  let t := s.data.map Char.toLower
  hasSub "thunderstorm".data t || hasSub "tornado".data t ||
    hasSub "flood".data t || hasSub "severe".data t

/-- The `alertScore` computation of `computeWeatherScoreForPoint`: 5 when
`cur.WeatherText` is truthy (present and not the empty string) and the
severe-weather regex matches it, else 0. -/
def alertFromText (wt : Option String) : ℚ :=
  match wt with
  | none => 0
  | some s => if s.data = [] then 0 else if severeTest s then 5 else 0

/-- `computeWeatherScoreForPoint(lat, lng)`: `fetch` stands for
`fetchAccuWeatherProxy`, which resolves to `null` (`none`) on any network
or proxy failure. `rainMM` is `pastHour ? Number(pastHour) : 0`, whose
value coincides with defaulting an absent field to 0 (the only falsy
number is 0 itself); `alertScore` is 5 when `WeatherText` is truthy and
matches the severe-weather pattern. -/
def computeWeatherScoreForPoint (fetch : Coord → Option AccuResp) (p : Coord) : WScore :=
  match fetch p with
  | none => ⟨0, 0⟩
  | some accu =>
    match accu.current with
    | none => ⟨0, 0⟩
    | some cur =>
      let rainMM : ℚ := cur.pastHour.getD 0
      let rainScore := min 10 rainMM
      ⟨rainScore, alertFromText cur.weatherText⟩

/-- The value returned by `scoreRouteCombinedAsync`: the combined score and
the breakdown it is assembled from. -/
structure ScoreResult where
  combined : ℚ
  learned : ℚ
  noah : ℚ
  weather : WScore
deriving DecidableEq

/-- `scoreRouteCombinedAsync(geojson)`. `wFail = true` models the awaited
weather call rejecting, in which case the `catch` keeps the zero default.
`Except.error ()` models the `TypeError` thrown outside any `try` block
when the geometry is malformed or empty: `coords.length` on an undefined
`coordinates` field, or the array destructuring of
`coords[midIdx] || coords[0]` when both indices are out of range. -/
def scoreRouteCombinedAsync (grid : Grid) (hz : Option (Coord → Bool))
    (fetch : Coord → Option AccuResp) (wFail : Bool)
    (geo : Option (List Coord)) : Except Unit ScoreResult :=
  let learned := computeLearnedScore grid geo
  let noah := computeNoahScore hz geo
  match geo with
  | none => Except.error ()
  | some [] => Except.error ()
  | some (c :: cs) =>
    let coords := c :: cs
    let midIdx := coords.length / 2
    let mid := (coords.get? midIdx).getD c
    let weather := if wFail then ⟨0, 0⟩ else computeWeatherScoreForPoint fetch mid
    let noahNorm := noah * (3.0 : ℚ)
    Except.ok ⟨(1.0 : ℚ) * learned + (3.0 : ℚ) * noahNorm +
      (0.2 : ℚ) * weather.rainScore + (2.0 : ℚ) * weather.alertScore,
      learned, noah, weather⟩

/-- One entry of the `evaluations` array in `handleRouting`: the index the
candidate had in `osrm.routes` and its combined score. -/
structure Cand where
  idx : ℕ
  score : ℚ
deriving DecidableEq

/-- One insertion step of a stable ascending sort by `score`, modelling
`evaluations.sort((a, b) => a.score - b.score)`: `Array.prototype.sort` is
stable, and the comparator orders by score, so an element is placed before
the first already-sorted element it does not exceed. -/
def insertCand (c : Cand) : List Cand → List Cand
  | [] => [c]
  | d :: ds => if c.score ≤ d.score then c :: d :: ds else d :: insertCand c ds

/-- The stable ascending sort of the candidate list. -/
def sortCands : List Cand → List Cand
  | [] => []
  | c :: cs => insertCand c (sortCands cs)

/-- `evaluations.sort(...)` followed by `const best = evaluations[0]`. -/
def selectBest (l : List Cand) : Option Cand :=
  (sortCands l).head?

/-- The candidate list built by `osrm.routes.map(async (r, idx) => ...)`:
each score is tagged with its position in the routing-service response,
starting at `i`. -/
def mkCands : ℕ → List ℚ → List Cand
  | _, [] => []
  | i, s :: ss => ⟨i, s⟩ :: mkCands (i + 1) ss

/-- Specification-side description of the selection (from the spec words
about minimum score and stable ties): scan for the first candidate whose
score no later candidate improves on. Used to characterize the head of
the stable sort. -/
def firstMinSpec : List Cand → Option Cand
  | [] => none
  | c :: cs =>
    match firstMinSpec cs with
    | none => some c
    | some b => if c.score ≤ b.score then some c else some b

/-- Origin/destination text as `resolveLocation` distinguishes it: empty
text, a literal `lat,lng` pair of parseable numbers, or free text carrying
the geocoding service answer (first result, or `none` when the search
returns nothing or fails). -/
inductive LocInput where
  | emptyText
  | coordPair (lat lng : ℚ)
  | address (geocoded : Option Coord)

/-- `resolveLocation(text)`. -/
def resolveLocation : LocInput → Option Coord
  | .emptyText => none
  | .coordPair lat lng => some ⟨lat, lng⟩
  | .address g => g

/-- `Number(document.getElementById("threshold").value) || 2`: `none`
models a NaN parse; NaN and 0 are both falsy, so both fall back to 2. -/
def effectiveThreshold (raw : Option ℚ) : ℚ :=
  match raw with
  | none => 2
  | some v => if v = 0 then 2 else v

/-- Observable steps of `handleRouting` relevant to input resolution. -/
inductive Ev where
  | statusMsg (s : String)
  | osrmRequest
deriving DecidableEq

/-- Event trace of `handleRouting` up to the OSRM request: set the
resolving status, resolve both inputs, and either bail out with the
failure status when `!o || !d`, or set the requesting status and issue
the routing request. No later step of the flow issues another routing
request, so the trace is complete for that event. -/
def handleRouting (ot dt : LocInput) : List Ev :=
  Ev.statusMsg "Resolving origin & destination..." ::
    (match resolveLocation ot, resolveLocation dt with
     | some _, some _ => [Ev.statusMsg "Requesting OSRM routes...", Ev.osrmRequest]
     | _, _ =>
       [Ev.statusMsg "Could not resolve origin or destination. Use lat,lng or a valid address."])

/-- Specification-side substring relation: `p` occurs contiguously in `l`. -/
def SubstrOf (p l : List Char) : Prop :=
  ∃ pre post, l = pre ++ p ++ post

/-- The four alternatives of the severe-weather pattern, as the spec lists
them. -/
def severeKeywords : List String :=
  ["thunderstorm", "tornado", "flood", "severe"]

/-! ### Sampling lemmas -/

theorem strideGo_get? (step : ℕ) (hstep : 1 ≤ step) (l : List Coord) :
    ∀ k i : ℕ, (strideGo step l k).get? i = l.get? (k + i * step) := by
  induction l with
  | nil => intro k i; simp [strideGo]
  | cons c rest ih =>
    intro k i
    cases k with
    | zero =>
      cases i with
      | zero => simp [strideGo]
      | succ j =>
        have hrw : 0 + (j + 1) * step = (step - 1 + j * step) + 1 := by
          obtain ⟨s, rfl⟩ := Nat.exists_eq_add_of_le hstep
          ring_nf
          omega
        simp only [strideGo, List.get?_cons_succ]
        rw [ih (step - 1) j, hrw, List.get?_cons_succ]
    | succ kk =>
      have hrw : kk + 1 + i * step = (kk + i * step) + 1 := by omega
      simp only [strideGo]
      rw [ih kk i, hrw, List.get?_cons_succ]

theorem strideGo_length (step : ℕ) (hstep : 1 ≤ step) (l : List Coord) :
    ∀ k : ℕ, (strideGo step l k).length = (l.length - k + (step - 1)) / step := by
  induction l with
  | nil =>
    intro k
    simp only [strideGo, List.length_nil, Nat.zero_sub, Nat.zero_add]
    exact (Nat.div_eq_of_lt (by omega)).symm
  | cons c rest ih =>
    intro k
    cases k with
    | zero =>
      simp only [strideGo, List.length_cons]
      rw [ih (step - 1)]
      have hR : rest.length + 1 - 0 + (step - 1) = rest.length + step := by omega
      rw [hR, Nat.add_div_right _ (by omega)]
      have hsub : (rest.length - (step - 1) + (step - 1)) / step = rest.length / step := by
        rcases le_or_lt (step - 1) rest.length with h | h
        · rw [Nat.sub_add_cancel h]
        · have h1 : rest.length - (step - 1) = 0 := by omega
          rw [h1, Nat.zero_add, Nat.div_eq_of_lt (by omega),
            Nat.div_eq_of_lt (by omega)]
      rw [hsub]
    | succ kk =>
      simp only [strideGo, List.length_cons]
      rw [ih kk]
      congr 2
      omega

theorem sample_some_length (coords : List Coord) (N : ℕ) :
    (sampleCoordsFromGeojson (some coords) N).length
      = (coords.length + (max 1 (coords.length / N) - 1)) / max 1 (coords.length / N) := by
  have hstep : 1 ≤ max 1 (coords.length / N) := le_max_left _ _
  simp only [sampleCoordsFromGeojson]
  rw [strideGo_length _ hstep _ 0, Nat.sub_zero]

theorem sample_some_get? (coords : List Coord) (N i : ℕ) :
    (sampleCoordsFromGeojson (some coords) N).get? i
      = coords.get? (i * max 1 (coords.length / N)) := by
  have hstep : 1 ≤ max 1 (coords.length / N) := le_max_left _ _
  simp only [sampleCoordsFromGeojson]
  rw [strideGo_get? _ hstep _ 0 i, Nat.zero_add]

theorem sample_length_bound (coords : List Coord) (N : ℕ) (hN : 1 ≤ N) :
    (sampleCoordsFromGeojson (some coords) N).length ≤ 2 * N - 1 := by
  rw [sample_some_length]
  have hs : 1 ≤ max 1 (coords.length / N) := le_max_left _ _
  have hlt : (coords.length + (max 1 (coords.length / N) - 1)) / max 1 (coords.length / N)
      < 2 * N := by
    rw [Nat.div_lt_iff_lt_mul (by omega)]
    rcases Nat.eq_zero_or_pos (coords.length / N) with hq | hq
    · have hs1 : max 1 (coords.length / N) = 1 := by rw [hq]; omega
      have hLN : coords.length < N := (Nat.div_eq_zero_iff (by omega)).mp hq
      rw [hs1]
      omega
    · have hs2 : max 1 (coords.length / N) = coords.length / N := Nat.max_eq_right hq
      have hLq : coords.length < (coords.length / N + 1) * N :=
        (Nat.div_lt_iff_lt_mul (by omega)).mp (Nat.lt_succ_self _)
      rw [hs2]
      obtain ⟨q, hqeq⟩ := Nat.exists_eq_add_of_le hq
      obtain ⟨M, rfl⟩ := Nat.exists_eq_add_of_le hN
      rw [hqeq] at hLq ⊢
      have e1 : (1 + q + 1) * (1 + M) = q * M + q + 2 * M + 2 := by ring
      have e2 : 2 * (1 + M) * (1 + q) = 2 * (q * M) + 2 * M + 2 * q + 2 := by ring
      rw [e1] at hLq
      rw [e2]
      omega
  omega

/-! ### Grid lemmas -/

theorem lookupCount_setKey_self (g : Grid) (k : ℤ × ℤ) (v : ℤ) :
    lookupCount (setKey g k v) k = v := by
  induction g with
  | nil => simp [setKey, lookupCount]
  | cons kv rest ih =>
    obtain ⟨k', v'⟩ := kv
    by_cases h : k' = k
    · simp [setKey, h, lookupCount]
    · simp [setKey, h, lookupCount, ih]

theorem lookupCount_setKey_other (g : Grid) (k k' : ℤ × ℤ) (v : ℤ) (h : k' ≠ k) :
    lookupCount (setKey g k v) k' = lookupCount g k' := by
  induction g with
  | nil =>
    simp only [setKey, lookupCount]
    rw [if_neg (fun hh => h hh.symm)]
  | cons kv rest ih =>
    obtain ⟨k0, v0⟩ := kv
    by_cases h0 : k0 = k
    · subst h0
      simp only [setKey, if_pos rfl, lookupCount]
      rw [if_neg (fun hh => h hh.symm), if_neg (fun hh => h hh.symm)]
    · simp only [setKey, if_neg h0, lookupCount]
      by_cases h1 : k0 = k'
      · rw [if_pos h1, if_pos h1]
      · rw [if_neg h1, if_neg h1, ih]

theorem lookupCount_nonneg (g : Grid) (hg : ∀ kv ∈ g, 0 ≤ kv.2) (k : ℤ × ℤ) :
    0 ≤ lookupCount g k := by
  induction g with
  | nil => simp [lookupCount]
  | cons kv rest ih =>
    obtain ⟨k', v⟩ := kv
    simp only [lookupCount]
    split
    · exact hg ⟨k', v⟩ (by simp)
    · exact ih fun kv hkv => hg kv (by simp [hkv])

theorem setKey_nonneg (g : Grid) (k : ℤ × ℤ) (v : ℤ) (hg : ∀ kv ∈ g, 0 ≤ kv.2)
    (hv : 0 ≤ v) : ∀ kv ∈ setKey g k v, 0 ≤ kv.2 := by
  induction g with
  | nil =>
    intro kv hkv
    simp only [setKey, List.mem_singleton] at hkv
    subst hkv
    exact hv
  | cons kv0 rest ih =>
    obtain ⟨k0, v0⟩ := kv0
    intro kv hkv
    by_cases h : k0 = k
    · rw [setKey, if_pos h] at hkv
      rcases List.mem_cons.mp hkv with rfl | hkv
      · exact hv
      · exact hg kv (List.mem_cons_of_mem _ hkv)
    · rw [setKey, if_neg h] at hkv
      rcases List.mem_cons.mp hkv with rfl | hkv
      · exact hg ⟨k0, v0⟩ (by simp)
      · exact ih (fun kv' hkv' => hg kv' (by simp [hkv'])) kv hkv

theorem lookupCount_eq_zero_of_not_mem (g : Grid) (k : ℤ × ℤ)
    (h : k ∉ g.map Prod.fst) : lookupCount g k = 0 := by
  induction g with
  | nil => rfl
  | cons kv rest ih =>
    obtain ⟨k', v⟩ := kv
    simp only [List.map_cons, List.mem_cons] at h
    push_neg at h
    simp only [lookupCount]
    rw [if_neg (fun hh => h.1 hh.symm), ih h.2]

/-! ### Selection lemmas -/

theorem head?_insertCand (c : Cand) (m : List Cand) :
    (insertCand c m).head? = some (match m with
      | [] => c
      | d :: _ => if c.score ≤ d.score then c else d) := by
  cases m with
  | nil => rfl
  | cons d ds =>
    simp only [insertCand]
    split <;> rfl

theorem sortCands_head? (l : List Cand) : (sortCands l).head? = firstMinSpec l := by
  induction l with
  | nil => rfl
  | cons c cs ih =>
    simp only [sortCands, firstMinSpec, head?_insertCand]
    rw [← ih]
    cases hs : sortCands cs with
    | nil => rfl
    | cons d ds =>
      simp only [List.head?_cons]
      by_cases hcd : c.score ≤ d.score <;> simp [hcd]

theorem firstMinSpec_isSome (c : Cand) (cs : List Cand) :
    ∃ b, firstMinSpec (c :: cs) = some b := by
  simp only [firstMinSpec]
  cases firstMinSpec cs with
  | none => exact ⟨c, rfl⟩
  | some b =>
    by_cases hc : c.score ≤ b.score
    · exact ⟨c, by simp [hc]⟩
    · exact ⟨b, by simp [hc]⟩

theorem firstMinSpec_none_nil (cs : List Cand) (h : firstMinSpec cs = none) : cs = [] := by
  cases cs with
  | nil => rfl
  | cons c cs' =>
    obtain ⟨b, hb⟩ := firstMinSpec_isSome c cs'
    rw [hb] at h
    cases h

theorem firstMinSpec_min (l : List Cand) :
    ∀ b, firstMinSpec l = some b → b ∈ l ∧ ∀ c ∈ l, b.score ≤ c.score := by
  induction l with
  | nil => intro b h; simp [firstMinSpec] at h
  | cons c cs ih =>
    intro b h
    simp only [firstMinSpec] at h
    cases hcs : firstMinSpec cs with
    | none =>
      rw [hcs] at h
      have h' : some c = some b := h
      injection h' with h'
      subst h'
      have hnil : cs = [] := firstMinSpec_none_nil cs hcs
      subst hnil
      exact ⟨by simp, by simp⟩
    | some b' =>
      rw [hcs] at h
      have h2 : (if c.score ≤ b'.score then some c else some b') = some b := h
      obtain ⟨hb'm, hb'min⟩ := ih b' hcs
      by_cases hc : c.score ≤ b'.score
      · rw [if_pos hc] at h2
        injection h2 with h2
        subst h2
        refine ⟨by simp, ?_⟩
        intro d hd
        rcases List.mem_cons.mp hd with rfl | hd
        · exact le_refl _
        · exact le_trans hc (hb'min d hd)
      · rw [if_neg hc] at h2
        injection h2 with h2
        subst h2
        push_neg at hc
        refine ⟨List.mem_cons_of_mem _ hb'm, ?_⟩
        intro d hd
        rcases List.mem_cons.mp hd with rfl | hd
        · exact le_of_lt hc
        · exact hb'min d hd

theorem firstMinSpec_stable (l : List Cand) :
    ∀ b, l.Pairwise (fun a b => a.idx < b.idx) → firstMinSpec l = some b →
      ∀ c ∈ l, c.score = b.score → b.idx ≤ c.idx := by
  induction l with
  | nil => intro b _ h; simp [firstMinSpec] at h
  | cons c cs ih =>
    intro b hpw h
    rw [List.pairwise_cons] at hpw
    obtain ⟨hcidx, hcs_pw⟩ := hpw
    simp only [firstMinSpec] at h
    cases hcs : firstMinSpec cs with
    | none =>
      rw [hcs] at h
      have h' : some c = some b := h
      injection h' with h'
      subst h'
      intro d hd _
      rcases List.mem_cons.mp hd with rfl | hd
      · exact le_refl _
      · exact le_of_lt (hcidx d hd)
    | some b' =>
      rw [hcs] at h
      have h2 : (if c.score ≤ b'.score then some c else some b') = some b := h
      by_cases hcb : c.score ≤ b'.score
      · rw [if_pos hcb] at h2
        injection h2 with h2
        subst h2
        intro d hd _
        rcases List.mem_cons.mp hd with rfl | hd
        · exact le_refl _
        · exact le_of_lt (hcidx d hd)
      · rw [if_neg hcb] at h2
        injection h2 with h2
        subst h2
        push_neg at hcb
        intro d hd hds
        rcases List.mem_cons.mp hd with rfl | hd
        · exact absurd hds (ne_of_gt hcb)
        · exact ih _ hcs_pw hcs d hd hds

theorem mem_mkCands_idx (ss : List ℚ) :
    ∀ i : ℕ, ∀ c ∈ mkCands i ss, i ≤ c.idx := by
  induction ss with
  | nil => intro i c hc; simp [mkCands] at hc
  | cons s ss ih =>
    intro i c hc
    rcases List.mem_cons.mp hc with rfl | hc
    · exact le_refl _
    · exact le_trans (by omega) (ih (i + 1) c hc)

theorem mkCands_pairwise_idx (ss : List ℚ) :
    ∀ i : ℕ, (mkCands i ss).Pairwise fun a b => a.idx < b.idx := by
  induction ss with
  | nil => intro i; simp [mkCands]
  | cons s ss ih =>
    intro i
    simp only [mkCands]
    rw [List.pairwise_cons]
    exact ⟨fun c hc => lt_of_lt_of_le (Nat.lt_succ_self i) (mem_mkCands_idx ss (i + 1) c hc),
      ih (i + 1)⟩

theorem mem_mkCands_score (ss : List ℚ) :
    ∀ i : ℕ, ∀ c ∈ mkCands i ss, c.score ∈ ss := by
  induction ss with
  | nil => intro i c hc; simp [mkCands] at hc
  | cons s ss ih =>
    intro i c hc
    rcases List.mem_cons.mp hc with rfl | hc
    · simp
    · exact List.mem_cons_of_mem _ (ih (i + 1) c hc)

theorem mkCands_pairwise_score_ne (ss : List ℚ) (h : ss.Nodup) :
    ∀ i : ℕ, (mkCands i ss).Pairwise fun a b => a.score ≠ b.score := by
  induction ss with
  | nil => intro i; simp [mkCands]
  | cons s ss ih =>
    rw [List.nodup_cons] at h
    intro i
    simp only [mkCands]
    rw [List.pairwise_cons]
    refine ⟨fun c hc he => h.1 ?_, ih h.2 (i + 1)⟩
    have hs : s = c.score := he
    rw [hs]
    exact mem_mkCands_score ss (i + 1) c hc

theorem mkCands_eq_nil_iff (i : ℕ) (ss : List ℚ) : mkCands i ss = [] ↔ ss = [] := by
  cases ss <;> simp [mkCands]

/-! ### Substring lemmas -/

theorem leadsWith_iff (p : List Char) :
    ∀ l, leadsWith p l = true ↔ ∃ post, l = p ++ post := by
  induction p with
  | nil => intro l; simp [leadsWith]
  | cons a ps ih =>
    intro l
    cases l with
    | nil => simp [leadsWith]
    | cons c cs =>
      simp only [leadsWith, Bool.and_eq_true, beq_iff_eq, ih cs, List.cons_append]
      constructor
      · rintro ⟨rfl, post, rfl⟩
        exact ⟨post, rfl⟩
      · rintro ⟨post, hpost⟩
        injection hpost with h1 h2
        exact ⟨h1.symm, post, h2⟩

theorem substrOf_nil_iff (p : List Char) : SubstrOf p [] ↔ p = [] := by
  constructor
  · rintro ⟨pre, post, hp⟩
    rcases List.append_eq_nil.mp hp.symm with ⟨h12, h3⟩
    exact (List.append_eq_nil.mp h12).2
  · rintro rfl
    exact ⟨[], [], rfl⟩

theorem hasSub_iff (p : List Char) : ∀ l, hasSub p l = true ↔ SubstrOf p l := by
  intro l
  induction l with
  | nil =>
    simp only [hasSub, leadsWith_iff, substrOf_nil_iff]
    constructor
    · rintro ⟨post, hp⟩
      have h := hp.symm
      simp only [List.append_eq_nil] at h
      exact h.1
    · rintro rfl
      exact ⟨[], by simp⟩
  | cons c cs ih =>
    simp only [hasSub, Bool.or_eq_true, leadsWith_iff, ih]
    constructor
    · rintro (⟨post, hp⟩ | ⟨pre, post, hp⟩)
      · exact ⟨[], post, by simpa using hp⟩
      · exact ⟨c :: pre, post, by simp [hp]⟩
    · rintro ⟨pre, post, hp⟩
      cases pre with
      | nil => exact Or.inl ⟨post, by simpa using hp⟩
      | cons a pre' =>
        right
        rw [List.cons_append, List.cons_append] at hp
        injection hp with h1 h2
        exact ⟨pre', post, h2⟩

theorem severeTest_iff (s : String) :
    severeTest s = true ↔
      ∃ kw ∈ severeKeywords, SubstrOf kw.data (s.data.map Char.toLower) := by
  simp only [severeTest, Bool.or_eq_true, hasSub_iff]
  constructor
  · rintro (((h | h) | h) | h)
    · exact ⟨"thunderstorm", by simp [severeKeywords], h⟩
    · exact ⟨"tornado", by simp [severeKeywords], h⟩
    · exact ⟨"flood", by simp [severeKeywords], h⟩
    · exact ⟨"severe", by simp [severeKeywords], h⟩
  · rintro ⟨kw, hkw, h⟩
    simp only [severeKeywords, List.mem_cons, List.not_mem_nil, or_false] at hkw
    rcases hkw with rfl | rfl | rfl | rfl
    · exact Or.inl (Or.inl (Or.inl h))
    · exact Or.inl (Or.inl (Or.inr h))
    · exact Or.inl (Or.inr h)
    · exact Or.inr h

/-! ### Score sign and shape lemmas -/

theorem computeLearnedScore_nonneg (grid : Grid) (geo : Option (List Coord))
    (hg : ∀ kv ∈ grid, 0 ≤ kv.2) : 0 ≤ computeLearnedScore grid geo := by
  simp only [computeLearnedScore]
  split
  · exact le_refl 0
  · apply div_nonneg
    · apply List.sum_nonneg
      intro x hx
      simp only [List.mem_map] at hx
      obtain ⟨p, _, rfl⟩ := hx
      exact_mod_cast lookupCount_nonneg grid hg _
    · exact Nat.cast_nonneg _

theorem computeNoahScore_nonneg (hz : Option (Coord → Bool)) (geo : Option (List Coord)) :
    0 ≤ computeNoahScore hz geo := by
  cases hz with
  | none => simp [computeNoahScore]
  | some hit =>
    simp only [computeNoahScore]
    split
    · exact div_nonneg (Nat.cast_nonneg _) (Nat.cast_nonneg _)
    · exact le_refl 0

theorem alertFromText_val (wt : Option String) :
    alertFromText wt = 0 ∨ alertFromText wt = 5 := by
  cases wt with
  | none => exact Or.inl rfl
  | some s =>
    by_cases h1 : s.data = []
    · simp [alertFromText, h1]
    · by_cases h2 : severeTest s = true <;> simp [alertFromText, h1, h2]

theorem alertFromText_eq_five_iff (wt : Option String) :
    alertFromText wt = 5 ↔
      ∃ s, wt = some s ∧ ∃ kw ∈ severeKeywords, SubstrOf kw.data (s.data.map Char.toLower) := by
  cases wt with
  | none =>
    simp only [alertFromText]
    constructor
    · intro h; exact absurd h (by norm_num)
    · rintro ⟨s, hs, _⟩; cases hs
  | some s =>
    simp only [alertFromText, Option.some.injEq, exists_eq_left']
    by_cases hnil : s.data = []
    · rw [if_pos hnil]
      constructor
      · intro h; exact absurd h (by norm_num)
      · rintro ⟨kw, hkw, hsub⟩
        exfalso
        rw [hnil] at hsub
        have hkwnil : kw.data = [] := (substrOf_nil_iff _).mp (by simpa using hsub)
        simp only [severeKeywords, List.mem_cons, List.not_mem_nil, or_false] at hkw
        rcases hkw with rfl | rfl | rfl | rfl <;> exact absurd hkwnil (by decide)
    · rw [if_neg hnil]
      by_cases hsev : severeTest s = true
      · rw [if_pos hsev]
        constructor
        · intro _; exact (severeTest_iff s).mp hsev
        · intro _; rfl
      · rw [if_neg hsev]
        constructor
        · intro h; exact absurd h (by norm_num)
        · intro hx; exact absurd ((severeTest_iff s).mpr hx) hsev

theorem computeWeatherScoreForPoint_nonneg (fetch : Coord → Option AccuResp) (p : Coord)
    (hf : ∀ a cur v, fetch p = some a → a.current = some cur → cur.pastHour = some v → 0 ≤ v) :
    0 ≤ (computeWeatherScoreForPoint fetch p).rainScore ∧
      0 ≤ (computeWeatherScoreForPoint fetch p).alertScore := by
  cases hfp : fetch p with
  | none => constructor <;> simp [computeWeatherScoreForPoint, hfp]
  | some a =>
    cases hc : a.current with
    | none => constructor <;> simp [computeWeatherScoreForPoint, hfp, hc]
    | some cur =>
      have hred : computeWeatherScoreForPoint fetch p
          = ⟨min 10 (cur.pastHour.getD 0), alertFromText cur.weatherText⟩ := by
        simp [computeWeatherScoreForPoint, hfp, hc]
      rw [hred]
      constructor
      · show (0 : ℚ) ≤ min 10 (cur.pastHour.getD 0)
        cases hp : cur.pastHour with
        | none =>
          simp only [Option.getD_none]
          exact le_min (by norm_num) (le_refl 0)
        | some v =>
          simp only [Option.getD_some]
          exact le_min (by norm_num) (hf a cur v hfp hc hp)
      · show (0 : ℚ) ≤ alertFromText cur.weatherText
        rcases alertFromText_val cur.weatherText with h | h <;> simp [h]

/-- The shape of a successful scoring call on a non-empty geometry: pure
unfolding of `scoreRouteCombinedAsync`. -/
theorem scoreRoute_ok_shape (grid : Grid) (hz : Option (Coord → Bool))
    (fetch : Coord → Option AccuResp) (wFail : Bool) (c : Coord) (cs : List Coord) :
    scoreRouteCombinedAsync grid hz fetch wFail (some (c :: cs)) =
      Except.ok ⟨(1.0 : ℚ) * computeLearnedScore grid (some (c :: cs)) +
          (3.0 : ℚ) * (computeNoahScore hz (some (c :: cs)) * (3.0 : ℚ)) +
          (0.2 : ℚ) * (if wFail then (⟨0, 0⟩ : WScore)
            else computeWeatherScoreForPoint fetch
              (((c :: cs).get? ((c :: cs).length / 2)).getD c)).rainScore +
          (2.0 : ℚ) * (if wFail then (⟨0, 0⟩ : WScore)
            else computeWeatherScoreForPoint fetch
              (((c :: cs).get? ((c :: cs).length / 2)).getD c)).alertScore,
        computeLearnedScore grid (some (c :: cs)),
        computeNoahScore hz (some (c :: cs)),
        if wFail then (⟨0, 0⟩ : WScore)
          else computeWeatherScoreForPoint fetch
            (((c :: cs).get? ((c :: cs).length / 2)).getD c)⟩ := rfl

/-! ### Claim theorems -/

/-- Claim C1, counterexample: the claim says `sampleCoordsFromGeojson(G, N)`
returns at most `N` coordinates, but for a 3-point geometry and `N = 2`
the stride is `max(1, floor(3/2)) = 1` and all 3 points are returned. -/
theorem c1_counterexample :
    2 < (sampleCoordsFromGeojson (some [⟨0, 0⟩, ⟨0, 1⟩, ⟨0, 2⟩]) 2).length := by
  decide

/-- Claim C1, amended: for `N ≥ 1`, `sampleCoordsFromGeojson(G, N)` returns
the points of `G` at indices `0, s, 2s, …` with `s = max(1, floor(length/N))`
— that is `ceil(length/s)` points, which can exceed `N` but is at most
`2N - 1` — always including the first point of `G`, and returns an empty
sequence iff `G`'s coordinate list is empty (a missing list also yields an
empty sequence). -/
theorem c1_amended (coords : List Coord) (N : ℕ) (hN : 1 ≤ N) :
    (sampleCoordsFromGeojson (some coords) N).length
        = (coords.length + (max 1 (coords.length / N) - 1)) / max 1 (coords.length / N) ∧
    (sampleCoordsFromGeojson (some coords) N).length ≤ 2 * N - 1 ∧
    (∀ i, (sampleCoordsFromGeojson (some coords) N).get? i
        = coords.get? (i * max 1 (coords.length / N))) ∧
    (sampleCoordsFromGeojson (some coords) N = [] ↔ coords = []) ∧
    (∀ c rest, coords = c :: rest →
      (sampleCoordsFromGeojson (some coords) N).head? = some c) ∧
    sampleCoordsFromGeojson none N = [] := by
  refine ⟨sample_some_length coords N, sample_length_bound coords N hN,
    fun i => sample_some_get? coords N i, ⟨?_, ?_⟩, ?_, rfl⟩
  · intro h
    cases coords with
    | nil => rfl
    | cons c rest =>
      exfalso
      have h0 := sample_some_get? (c :: rest) N 0
      rw [h] at h0
      simp at h0
  · intro h
    subst h
    rfl
  · intro c rest hc
    subst hc
    have h0 := sample_some_get? (c :: rest) N 0
    rw [Nat.zero_mul, List.get?_cons_zero] at h0
    rw [← List.get?_zero, h0]

/-- Claim C1, witness: on the 3-point geometry with `N = 2` the amended
bound and the first-point guarantee hold. -/
theorem c1_witness :
    (sampleCoordsFromGeojson (some [⟨0, 0⟩, ⟨0, 1⟩, ⟨0, 2⟩]) 2).length ≤ 2 * 2 - 1 ∧
      (sampleCoordsFromGeojson (some [⟨0, 0⟩, ⟨0, 1⟩, ⟨0, 2⟩]) 2).head? = some ⟨0, 0⟩ :=
  ⟨(c1_amended [⟨0, 0⟩, ⟨0, 1⟩, ⟨0, 2⟩] 2 (by decide)).2.1,
   (c1_amended [⟨0, 0⟩, ⟨0, 1⟩, ⟨0, 2⟩] 2 (by decide)).2.2.2.2.1 ⟨0, 0⟩ [⟨0, 1⟩, ⟨0, 2⟩] rfl⟩

/-- Claim C2: whenever `scoreRouteCombinedAsync` returns a result, its
combined score equals `1.0·learned + 3.0·(noah·3.0) + 0.2·rain + 2.0·alert`
exactly, for the sub-scores in its own breakdown. -/
theorem c2_combined_formula (grid : Grid) (hz : Option (Coord → Bool))
    (fetch : Coord → Option AccuResp) (wFail : Bool) (geo : Option (List Coord))
    (r : ScoreResult) (h : scoreRouteCombinedAsync grid hz fetch wFail geo = .ok r) :
    r.combined = (1.0 : ℚ) * r.learned + (3.0 : ℚ) * (r.noah * (3.0 : ℚ))
      + (0.2 : ℚ) * r.weather.rainScore + (2.0 : ℚ) * r.weather.alertScore := by
  cases geo with
  | none => simp [scoreRouteCombinedAsync] at h
  | some l =>
    cases l with
    | nil => simp [scoreRouteCombinedAsync] at h
    | cons c cs =>
      rw [scoreRoute_ok_shape] at h
      injection h with h
      subst h
      rfl

/-- Claim C2, witness: a concrete one-point route with no grid, hazard or
weather data satisfies the combination formula. -/
theorem c2_witness :
    ∃ r, scoreRouteCombinedAsync [] none (fun _ => none) false (some [⟨0, 0⟩]) = .ok r ∧
      r.combined = (1.0 : ℚ) * r.learned + (3.0 : ℚ) * (r.noah * (3.0 : ℚ))
        + (0.2 : ℚ) * r.weather.rainScore + (2.0 : ℚ) * r.weather.alertScore :=
  ⟨_, rfl, c2_combined_formula [] none (fun _ => none) false (some [⟨0, 0⟩]) _ rfl⟩

/-- Claim C3: sorting the scored candidates ascending and taking index 0
selects a candidate of minimum score; on ties the candidate earliest in the
original routing-service order wins (the sort is stable), and with distinct
scores the winner is the strict minimum. -/
theorem c3_selection (scores : List ℚ) (hne : scores ≠ []) :
    ∃ b, selectBest (mkCands 0 scores) = some b ∧ b ∈ mkCands 0 scores ∧
      (∀ c ∈ mkCands 0 scores, b.score ≤ c.score) ∧
      (∀ c ∈ mkCands 0 scores, c.score = b.score → b.idx ≤ c.idx) ∧
      (scores.Nodup → ∀ c ∈ mkCands 0 scores, c ≠ b → b.score < c.score) := by
  obtain ⟨c0, cs, hcc⟩ : ∃ c0 cs, mkCands 0 scores = c0 :: cs := by
    cases hmk : mkCands 0 scores with
    | nil => exact absurd ((mkCands_eq_nil_iff 0 scores).mp hmk) hne
    | cons a l => exact ⟨a, l, rfl⟩
  obtain ⟨b, hb⟩ : ∃ b, firstMinSpec (mkCands 0 scores) = some b := by
    rw [hcc]
    exact firstMinSpec_isSome c0 cs
  obtain ⟨hmem, hmin⟩ := firstMinSpec_min (mkCands 0 scores) b hb
  refine ⟨b, ?_, hmem, hmin, ?_, ?_⟩
  · rw [selectBest, sortCands_head?, hb]
  · exact firstMinSpec_stable (mkCands 0 scores) b (mkCands_pairwise_idx scores 0) hb
  · intro hnd c hc hcb
    have hpw := mkCands_pairwise_score_ne scores hnd 0
    have hsym : Symmetric fun a b : Cand => a.score ≠ b.score := fun _ _ h => h.symm
    exact lt_of_le_of_ne (hmin c hc) (List.Pairwise.forall hsym hpw hmem hc (Ne.symm hcb))

/-- Claim C3, witness: for response-ordered scores `[3, 1, 1]` the selection
facts hold at a concrete input (the tie at score 1 goes to index 1). -/
theorem c3_witness :
    ∃ b, selectBest (mkCands 0 [(3 : ℚ), 1, 1]) = some b ∧ b ∈ mkCands 0 [(3 : ℚ), 1, 1] ∧
      (∀ c ∈ mkCands 0 [(3 : ℚ), 1, 1], b.score ≤ c.score) ∧
      (∀ c ∈ mkCands 0 [(3 : ℚ), 1, 1], c.score = b.score → b.idx ≤ c.idx) ∧
      (([(3 : ℚ), 1, 1] : List ℚ).Nodup →
        ∀ c ∈ mkCands 0 [(3 : ℚ), 1, 1], c ≠ b → b.score < c.score) :=
  c3_selection [3, 1, 1] (by decide)

/-- Claim C4, counterexample: on a geometry with an empty coordinate list,
`scoreRouteCombinedAsync` does not return a score — the destructuring of
`coords[midIdx] || coords[0]` throws a `TypeError` outside any `try`. -/
theorem c4_counterexample :
    scoreRouteCombinedAsync [] none (fun _ => none) false (some []) = Except.error () := rfl

/-- Claim C4, amended: on a geometry with at least one coordinate,
`scoreRouteCombinedAsync` always completes with a score, and each failing
sub-score degrades to 0 (a rejected weather await gives `{0,0}`, an absent
hazard layer gives hazard 0, an unreachable weather proxy gives `{0,0}`);
but a missing or empty coordinate list makes the call throw instead. -/
theorem c4_amended (grid : Grid) (hz : Option (Coord → Bool))
    (fetch : Coord → Option AccuResp) (wFail : Bool) (c : Coord) (cs : List Coord) :
    (∃ r, scoreRouteCombinedAsync grid hz fetch wFail (some (c :: cs)) = .ok r ∧
      (wFail = true → r.weather = ⟨0, 0⟩) ∧
      (hz = none → r.noah = 0) ∧
      (wFail = false → (∀ q, fetch q = none) → r.weather = ⟨0, 0⟩)) ∧
    scoreRouteCombinedAsync grid hz fetch wFail none = Except.error () := by
  refine ⟨⟨_, scoreRoute_ok_shape grid hz fetch wFail c cs, ?_, ?_, ?_⟩, rfl⟩
  · intro hw
    subst hw
    rfl
  · intro hhz
    subst hhz
    rfl
  · intro hw hf
    subst hw
    show computeWeatherScoreForPoint fetch _ = ⟨0, 0⟩
    simp [computeWeatherScoreForPoint, hf]

/-- Claim C4, witness: with no hazard layer and an unreachable weather
proxy, a one-point route still scores, with both degraded sub-scores 0. -/
theorem c4_witness :
    ∃ r, scoreRouteCombinedAsync [] none (fun _ => none) false (some [⟨0, 0⟩]) = .ok r ∧
      r.weather = ⟨0, 0⟩ ∧ r.noah = 0 := by
  obtain ⟨⟨r, hok, _, hn, hw⟩, _⟩ := c4_amended [] none (fun _ => none) false ⟨0, 0⟩ []
  exact ⟨r, hok, hw rfl fun _ => rfl, hn rfl⟩

/-- Claim C5: after `FloodLearner.increment` at a coordinate, the score read
back there is at least 1; an increment never decreases the score at any
coordinate (so repeated increments are monotone); and all stored counts stay
non-negative. -/
theorem c5_increment_monotone (g : Grid) (lat lng : ℚ) (hg : ∀ kv ∈ g, 0 ≤ kv.2) :
    1 ≤ FloodLearner.score (FloodLearner.increment g lat lng) lat lng ∧
    (∀ la ln : ℚ, FloodLearner.score g la ln
        ≤ FloodLearner.score (FloodLearner.increment g lat lng) la ln) ∧
    (∀ kv ∈ FloodLearner.increment g lat lng, 0 ≤ kv.2) := by
  refine ⟨?_, ?_, ?_⟩
  · simp only [FloodLearner.score, FloodLearner.increment, lookupCount_setKey_self]
    have := lookupCount_nonneg g hg (FloodLearner.key lat lng)
    omega
  · intro la ln
    simp only [FloodLearner.score, FloodLearner.increment]
    by_cases h : FloodLearner.key la ln = FloodLearner.key lat lng
    · rw [h, lookupCount_setKey_self]
      omega
    · rw [lookupCount_setKey_other _ _ _ _ h]
  · simp only [FloodLearner.increment]
    refine setKey_nonneg g _ _ hg ?_
    have := lookupCount_nonneg g hg (FloodLearner.key lat lng)
    omega

/-- Claim C5, witness: incrementing the empty grid at `(1, 2)` gives a
score of at least 1 there, monotonicity, and non-negative counts. -/
theorem c5_witness :
    1 ≤ FloodLearner.score (FloodLearner.increment [] 1 2) 1 2 ∧
    (∀ la ln : ℚ, FloodLearner.score [] la ln
        ≤ FloodLearner.score (FloodLearner.increment [] 1 2) la ln) ∧
    (∀ kv ∈ FloodLearner.increment [] 1 2, 0 ≤ kv.2) :=
  c5_increment_monotone [] 1 2 (by simp)

/-- Claim C6: `computeWeatherScoreForPoint` returns `{0,0}` on a missing
response or missing `current` field; otherwise its rain score is
`min(10, pastHourMM)` (0 when the precipitation field is absent) and its
alert score is 5 exactly when the weather text contains one of the
severe-weather keywords case-insensitively, else 0. -/
theorem c6_weather_score (fetch : Coord → Option AccuResp) (p : Coord) :
    (fetch p = none → computeWeatherScoreForPoint fetch p = ⟨0, 0⟩) ∧
    (∀ a, fetch p = some a → a.current = none →
      computeWeatherScoreForPoint fetch p = ⟨0, 0⟩) ∧
    (∀ a cur, fetch p = some a → a.current = some cur →
      (cur.pastHour = none → (computeWeatherScoreForPoint fetch p).rainScore = 0) ∧
      (∀ v, cur.pastHour = some v →
        (computeWeatherScoreForPoint fetch p).rainScore = min 10 v) ∧
      ((computeWeatherScoreForPoint fetch p).alertScore = 5 ↔
        ∃ s, cur.weatherText = some s ∧
          ∃ kw ∈ severeKeywords, SubstrOf kw.data (s.data.map Char.toLower)) ∧
      ((computeWeatherScoreForPoint fetch p).alertScore = 0 ∨
        (computeWeatherScoreForPoint fetch p).alertScore = 5)) := by
  refine ⟨?_, ?_, ?_⟩
  · intro h
    simp [computeWeatherScoreForPoint, h]
  · intro a ha hc
    simp [computeWeatherScoreForPoint, ha, hc]
  · intro a cur ha hc
    have hred : computeWeatherScoreForPoint fetch p
        = ⟨min 10 (cur.pastHour.getD 0), alertFromText cur.weatherText⟩ := by
      simp [computeWeatherScoreForPoint, ha, hc]
    rw [hred]
    refine ⟨?_, ?_, ?_, ?_⟩
    · intro hp
      show min (10 : ℚ) (cur.pastHour.getD 0) = 0
      rw [hp, Option.getD_none]
      exact min_eq_right (by norm_num)
    · intro v hv
      show min (10 : ℚ) (cur.pastHour.getD 0) = min 10 v
      rw [hv, Option.getD_some]
    · exact alertFromText_eq_five_iff cur.weatherText
    · exact alertFromText_val cur.weatherText

/-- Claim C6, witness: a response reporting 12 mm of rain in the past hour
and the text containing a severe keyword yields a clamped rain score and
alert score 5. -/
theorem c6_witness :
    (computeWeatherScoreForPoint
        (fun _ => some ⟨some ⟨some "Severe thunderstorm", some 12⟩⟩) ⟨0, 0⟩).rainScore
      = min 10 12 ∧
    (computeWeatherScoreForPoint
        (fun _ => some ⟨some ⟨some "Severe thunderstorm", some 12⟩⟩) ⟨0, 0⟩).alertScore
      = 5 := by
  obtain ⟨-, -, h3⟩ :=
    c6_weather_score (fun _ => some ⟨some ⟨some "Severe thunderstorm", some 12⟩⟩) ⟨0, 0⟩
  obtain ⟨-, hrain, halert, -⟩ := h3 _ _ rfl rfl
  refine ⟨hrain 12 rfl, halert.mpr ?_⟩
  exact ⟨"Severe thunderstorm", rfl, "severe", by decide, [], " thunderstorm".data, by decide⟩

/-- Claim C7: when either the origin or the destination resolves to no
coordinate, `handleRouting` reports the failure status and never issues an
OSRM routing request. -/
theorem c7_resolution_failure (ot dt : LocInput)
    (h : resolveLocation ot = none ∨ resolveLocation dt = none) :
    Ev.osrmRequest ∉ handleRouting ot dt ∧
      Ev.statusMsg "Could not resolve origin or destination. Use lat,lng or a valid address."
        ∈ handleRouting ot dt := by
  cases ho : resolveLocation ot with
  | none =>
    cases hd : resolveLocation dt with
    | none => constructor <;> simp [handleRouting, ho, hd]
    | some d => constructor <;> simp [handleRouting, ho, hd]
  | some o =>
    cases hd : resolveLocation dt with
    | none => constructor <;> simp [handleRouting, ho, hd]
    | some d =>
      exfalso
      rcases h with h | h
      · rw [ho] at h; cases h
      · rw [hd] at h; cases h

/-- Claim C7, witness: an origin whose geocoding returns nothing halts the
flow with the failure message and no routing request. -/
theorem c7_witness :
    Ev.osrmRequest ∉ handleRouting (.address none) (.coordPair 1 2) ∧
      Ev.statusMsg "Could not resolve origin or destination. Use lat,lng or a valid address."
        ∈ handleRouting (.address none) (.coordPair 1 2) :=
  c7_resolution_failure (.address none) (.coordPair 1 2) (Or.inl rfl)

/-- Claim C8, counterexample: the combined score is not non-negative for
every precipitation value — a reported past-hour precipitation of -1 mm is
not clamped below, giving a combined score of -0.2. -/
theorem c8_counterexample :
    ∃ r, scoreRouteCombinedAsync [] none
        (fun _ => some ⟨some ⟨none, some (-1)⟩⟩) false (some [⟨0, 0⟩]) = .ok r ∧
      r.combined < 0 := by
  refine ⟨_, scoreRoute_ok_shape [] none (fun _ => some ⟨some ⟨none, some (-1)⟩⟩)
    false ⟨0, 0⟩ [], ?_⟩
  norm_num [scoreRouteCombinedAsync, computeLearnedScore, computeNoahScore,
    computeWeatherScoreForPoint, alertFromText, sampleCoordsFromGeojson, strideGo,
    FloodLearner.score, lookupCount, min_def]

/-- Claim C8, amended: the combined score is non-negative provided every
stored grid count is non-negative and any reported past-hour precipitation
value is non-negative (the code does not clamp a negative precipitation
value, which can push the combined score below zero). -/
theorem c8_amended (grid : Grid) (hz : Option (Coord → Bool))
    (fetch : Coord → Option AccuResp) (wFail : Bool) (geo : Option (List Coord))
    (r : ScoreResult) (hg : ∀ kv ∈ grid, 0 ≤ kv.2)
    (hf : ∀ q a cur v, fetch q = some a → a.current = some cur →
      cur.pastHour = some v → 0 ≤ v)
    (h : scoreRouteCombinedAsync grid hz fetch wFail geo = .ok r) :
    0 ≤ r.combined := by
  cases geo with
  | none => simp [scoreRouteCombinedAsync] at h
  | some l =>
    cases l with
    | nil => simp [scoreRouteCombinedAsync] at h
    | cons c cs =>
      rw [scoreRoute_ok_shape] at h
      injection h with h
      subst h
      have hlearn := computeLearnedScore_nonneg grid (some (c :: cs)) hg
      have hnoah := computeNoahScore_nonneg hz (some (c :: cs))
      have hw : 0 ≤ (if wFail then (⟨0, 0⟩ : WScore)
            else computeWeatherScoreForPoint fetch
              (((c :: cs).get? ((c :: cs).length / 2)).getD c)).rainScore ∧
          0 ≤ (if wFail then (⟨0, 0⟩ : WScore)
            else computeWeatherScoreForPoint fetch
              (((c :: cs).get? ((c :: cs).length / 2)).getD c)).alertScore := by
        split
        · exact ⟨le_refl 0, le_refl 0⟩
        · exact computeWeatherScoreForPoint_nonneg fetch _ fun a cur v => hf _ a cur v
      refine add_nonneg (add_nonneg (add_nonneg ?_ ?_) ?_) ?_
      · exact mul_nonneg (by norm_num) hlearn
      · exact mul_nonneg (by norm_num) (mul_nonneg hnoah (by norm_num))
      · exact mul_nonneg (by norm_num) hw.1
      · exact mul_nonneg (by norm_num) hw.2

/-- Claim C8, witness: with an empty grid and an unreachable weather proxy
the combined score of a one-point route is non-negative. -/
theorem c8_witness :
    ∃ r, scoreRouteCombinedAsync [] none (fun _ => none) false (some [⟨0, 0⟩]) = .ok r ∧
      0 ≤ r.combined :=
  ⟨_, rfl, c8_amended [] none (fun _ => none) false (some [⟨0, 0⟩]) _ (by simp)
    (fun _ _ _ _ hq _ _ => Option.noConfusion hq) rfl⟩

/-- Claim C9: a threshold input parsing to NaN and the literal value 0 both
fall back to the effective threshold 2, so a configured threshold of 0 is
never honored. -/
theorem c9_threshold :
    effectiveThreshold none = 2 ∧ effectiveThreshold (some 0) = 2 :=
  ⟨rfl, by simp [effectiveThreshold]⟩

/-- Claim C10, counterexample: the claim says that for every content of
the storage key, `FloodLearner.all()` returns an object and `score`
consequently returns 0 rather than failing; but the stored text `null` is
well-formed JSON, parses to JSON null without the catch firing, `all()`
returns null (not an object), and the property read in `score` throws a
`TypeError`. -/
theorem c10_counterexample :
    FloodLearner.all (.wellFormed .jnull) = .jnull ∧
      FloodLearner.scoreStored (.wellFormed .jnull) 1 2 = Except.error () :=
  ⟨rfl, rfl⟩

/-- Claim C10, amended: `FloodLearner.all()` itself completes for every
storage content — malformed (non-JSON) data and an absent key yield the
empty object, and well-formed JSON yields its parsed value, which need not
be an object — and `FloodLearner.score` returns 0 for any coordinate whose
key is not bound by the parsed value, provided that value is not JSON
null; for the stored text `null`, `all()` returns null and `score` throws
a `TypeError`. -/
theorem c10_amended :
    (∀ raw, FloodLearner.all (.malformed raw) = .jobj []) ∧
    FloodLearner.all .absent = .jobj [] ∧
    (∀ v, FloodLearner.all (.wellFormed v) = v) ∧
    ∀ (s : Stored) (lat lng : ℚ), FloodLearner.all s ≠ .jnull →
      (∀ g, FloodLearner.all s = .jobj g →
        FloodLearner.key lat lng ∉ g.map Prod.fst) →
      FloodLearner.scoreStored s lat lng = .ok 0 := by
  refine ⟨fun raw => rfl, rfl, fun v => rfl, ?_⟩
  intro s lat lng hnn hobj
  simp only [FloodLearner.scoreStored]
  cases hv : FloodLearner.all s with
  | jnull => exact absurd hv hnn
  | jbool b => rfl
  | jnum q => rfl
  | jstr t => rfl
  | jobj g =>
    show Except.ok (lookupCount g (FloodLearner.key lat lng)) = Except.ok 0
    rw [lookupCount_eq_zero_of_not_mem _ _ (hobj g hv)]

/-- Claim C10, witness: malformed storage contents and a stored JSON
number both read back as score 0 at `(1, 2)` without failing. -/
theorem c10_witness :
    FloodLearner.scoreStored (.malformed "not json") 1 2 = .ok 0 ∧
      FloodLearner.scoreStored (.wellFormed (.jnum 5)) 1 2 = .ok 0 := by
  constructor
  · refine c10_amended.2.2.2 (.malformed "not json") 1 2 (by simp [FloodLearner.all, parseStored]) ?_
    intro g hg
    have h2 : JsonVal.jobj [] = JsonVal.jobj g := hg
    injection h2 with h2
    subst h2
    simp
  · refine c10_amended.2.2.2 (.wellFormed (.jnum 5)) 1 2 (by simp [FloodLearner.all, parseStored]) ?_
    intro g hg
    exact absurd hg (by simp [FloodLearner.all, parseStored])
